import Mathlib

/-!
Shallow embedding of `openml/evaluations/functions.py` (evaluation listing,
measure listing, query-path construction and the evaluation+setup join) and
proofs about it.

Python values are modelled as follows: machine-independent Python ints are
`Int`; the textual content of XML fields is `String`; `float(...)` and
`json.loads(...)` results keep the raw source text, since no claim computes
with them; a Python `None` / an absent XML tag is `Option.none`; exceptions
are the `Except` monad; network traffic is an explicit trace of `NetCall`
values threaded through the functions, with the remote server abstracted as
a function from request to response.
-/

set_option autoImplicit false

namespace OpenmlEvals

/-- Python exceptions raised by the modelled code paths. -/
inductive PyError where
  | valueError (msg : String)
  | typeError (msg : String)
  | indexError
  | keyError (msg : String)
  deriving DecidableEq

/-- One `oml:evaluation` element of the parsed XML response, after
`xmltodict.parse`: the mandatory fields plus the three optional tags.
An `Option` field is `some` exactly when the corresponding XML tag is
present in the element; the `int(...)` coercions of the mandatory id
fields are modelled by typing the fields as `Int` directly. -/
structure RawEval where
  run_id : Int
  task_id : Int
  setup_id : Int
  flow_id : Int
  flow_name : String
  data_id : String
  data_name : String
  function : String
  upload_time : String
  value : Option String
  values : Option String
  array_data : Option String
  deriving DecidableEq

/-- The per-record payload built in the loop of `__list_evaluations`
(lines 176-211): identical field set for the object, dict and dataframe
branches. `value` keeps the argument text of `float(...)`, `values` the
argument text of `json.loads(...)`. -/
structure ParsedEval where
  run_id : Int
  task_id : Int
  setup_id : Int
  flow_id : Int
  flow_name : String
  data_id : String
  data_name : String
  function : String
  upload_time : String
  value : Option String
  values : Option String
  array_data : Option String
  deriving DecidableEq

/-- Lines 176-211 of the source: `value`, `values`, `array_data` start as
`None` and are set exactly when the corresponding tag is present in the
element, which the `Option` fields of `RawEval` record directly. -/
def parseOne (e : RawEval) : ParsedEval :=
  { run_id := e.run_id, task_id := e.task_id, setup_id := e.setup_id,
    flow_id := e.flow_id, flow_name := e.flow_name, data_id := e.data_id,
    data_name := e.data_name, function := e.function,
    upload_time := e.upload_time, value := e.value, values := e.values,
    array_data := e.array_data }

/-- First-match association-list lookup, the semantics of Python dict
reading (keys are kept unique by `odSet`). -/
def alookup {κ α : Type} [DecidableEq κ] (k : κ) : List (κ × α) → Option α
  | [] => none
  | p :: ps => if p.1 = k then some p.2 else alookup k ps

/-- Whether a key occurs in an association list (`k in d` in Python). -/
def hasKey {κ α : Type} [DecidableEq κ] (k : κ) : List (κ × α) → Bool
  | [] => false
  | p :: ps => if p.1 = k then true else hasKey k ps

/-- Python `collections.OrderedDict` assignment `d[k] = v`: when the key is
already present its value is updated in place (insertion position kept);
otherwise the pair is appended at the end. -/
def odSet {α : Type} (m : List (Int × α)) (k : Int) (v : α) : List (Int × α) :=
  if hasKey k m then m.map (fun p => if p.1 = k then (k, v) else p)
  else m ++ [(k, v)]

/-- The accumulation loop of `__list_evaluations` (lines 174-211):
`evals = OrderedDict(); for eval_ in ...: evals[run_id] = record`. -/
def buildEvals (records : List RawEval) : List (Int × ParsedEval) :=
  records.foldl (fun m r => odSet m r.run_id (parseOne r)) []

/-- Column names of the dataframe built at line 215: `rows[0].keys()`, the
insertion order of the dict branch. -/
def evalCols : List String :=
  ["run_id", "task_id", "setup_id", "flow_id", "flow_name", "data_id",
   "data_name", "function", "upload_time", "value", "values", "array_data"]

/-- Result of `__list_evaluations`, one constructor per output format. -/
inductive EvalsResult where
  | objects (evals : List (Int × ParsedEval))
  | dicts (evals : List (Int × ParsedEval))
  | frame (cols : List String) (rows : List ParsedEval)
  deriving DecidableEq

/-- The rows of a result viewed as a table (`len(evals)` and column reads
in `list_evaluations_setups` operate on the dataframe form). -/
def rowsOf : EvalsResult → List ParsedEval
  | .objects m => m.map Prod.snd
  | .dicts m => m.map Prod.snd
  | .frame _ rows => rows

/-- The parsed `xmltodict` document of an evaluation-list response:
the set of top-level keys, the list under
`evals_dict[oml:evaluations][oml:evaluation]` (forced to a list by
`force_list`), and `str(evals_dict)`, the rendering interpolated into the
missing-tag error message. -/
structure EvalsDoc where
  topKeys : List String
  evaluations : List RawEval
  strRepr : String
  deriving DecidableEq

/-- Prefix of the error message at lines 168-169; the source interpolates
`str(evals_dict)` after it. -/
def evalsMissingMsg : String :=
  "Error in return XML, does not contain \"oml:evaluations\": "

/-- `__list_evaluations` (lines 162-216) after the network fetch and
`xmltodict.parse`: check the top-level tag, accumulate the records keyed by
run id, then project into the requested output format. In the dataframe
branch the source reads `rows[0].keys()` unconditionally, so an empty
record list raises `IndexError`. -/
def listEvalsOfDoc (doc : EvalsDoc) (output_format : String) :
    Except PyError EvalsResult :=
  if "oml:evaluations" ∈ doc.topKeys then
    let evals := buildEvals doc.evaluations
    if output_format = "dataframe" then
      match evals.map Prod.snd with
      | [] => .error .indexError
      | r :: rs => .ok (.frame evalCols (r :: rs))
    else if output_format = "object" then .ok (.objects evals)
    else .ok (.dicts evals)
  else .error (.valueError (evalsMissingMsg ++ doc.strRepr))

/-- The entry under `qualities[oml:evaluation_measures][oml:measures][0][oml:measure]`
in a measure-list response: either a single string or a list of strings. -/
inductive MeasureEntry where
  | single (s : String)
  | many (l : List String)
  deriving DecidableEq

/-- The parsed `xmltodict` document of a measure-list response. -/
structure MeasuresDoc where
  topKeys : List String
  measure : MeasureEntry
  strRepr : String
  deriving DecidableEq

/-- The fixed error message at lines 235-236: unlike the evaluation-list
parser, nothing of the parsed structure is interpolated into it. -/
def measuresMissingMsg : String :=
  "Error in return XML, does not contain \"oml:evaluation_measures\""

/-- The error message of the `TypeError` at lines 239-240. -/
def measuresNotListMsg : String :=
  "Error in return XML, does not contain \"oml:measure\" as a list"

/-- `list_evaluation_measures` (lines 219-242) after the network fetch and
parse: check the top-level tag, require the nested measure entry to be a
list, and return it. -/
def list_evaluation_measures (doc : MeasuresDoc) : Except PyError (List String) :=
  if "oml:evaluation_measures" ∈ doc.topKeys then
    match doc.measure with
    | .many l => .ok l
    | .single _ => .error (.typeError measuresNotListMsg)
  else .error (.valueError measuresMissingMsg)

/-- Rendering of an identifier list in the query path:
`','.join([str(int(i)) for i in ids])` at lines 147-155. -/
def commaJoin (ids : List Int) : String :=
  String.intercalate "," (ids.map toString)

/-- The query path built by `_list_evaluations` (lines 142-157): start from
`evaluation/list/function/<function>`, append one `/<operator>/<value>`
segment per keyword filter, then the optional `run`, `task`, `setup`,
`flow`, `uploader` and `sort_order` segments, in source order. Each branch
appends to the accumulator exactly as the `+=` statements do. -/
def buildApiCall (function : String) (kwargs : List (String × String))
    (id task setup flow uploader : Option (List Int))
    (sort_order : Option String) : String :=
  let a := "evaluation/list/function/" ++ function
  let a := kwargs.foldl (fun acc p => acc ++ "/" ++ p.1 ++ "/" ++ p.2) a
  let a := match id with
    | none => a
    | some l => a ++ "/run/" ++ commaJoin l
  let a := match task with
    | none => a
    | some l => a ++ "/task/" ++ commaJoin l
  let a := match setup with
    | none => a
    | some l => a ++ "/setup/" ++ commaJoin l
  let a := match flow with
    | none => a
    | some l => a ++ "/flow/" ++ commaJoin l
  let a := match uploader with
    | none => a
    | some l => a ++ "/uploader/" ++ commaJoin l
  let a := match sort_order with
    | none => a
    | some s => a ++ "/sort_order/" ++ s
  a

/-- One hyperparameter entry of a setup record: the fields read at
line 318 of the source. -/
structure SetupParam where
  parameter_name : String
  value : String
  deriving DecidableEq

/-- One row of the `list_setups` dataframe: setup id, the flow id column
dropped at line 311, and the `parameters` cell, which is `None` or a
mapping of parameter entries. -/
structure RawSetup where
  setup_id : Int
  flow_id : Int
  parameters : Option (List SetupParam)
  deriving DecidableEq

/-- One network interaction of the modelled code. -/
inductive NetCall where
  | apiGet (path : String)
  | setupsFetch (ids : List Int)
  deriving DecidableEq

/-- The remote server, abstracted: the evaluation-list response for a query
path (`none` models the no-results reply handled by the external pagination
helper), and the setup rows returned by `openml.setups.list_setups` for a
batch of setup ids. -/
structure Server where
  evalsDoc : String → Option EvalsDoc
  setups : List Int → List RawSetup

/-- An optional keyword filter of the listing call. -/
def optKw (k : String) : Option String → List (String × String)
  | none => []
  | some v => [(k, v)]

/-- The empty result in the requested output format. An empty pandas
dataframe has no columns. -/
def emptyResult (fmt : String) : EvalsResult :=
  if fmt = "dataframe" then .frame [] []
  else if fmt = "object" then .objects []
  else .dicts []

/-- Modelled from the spec: `openml.utils._list_all` is an out-of-scope
external collaborator (spec section 1) and its code is not in the
repository sources. Per spec section 4.1 it performs exactly one network
call per invocation, forwarding the scalar filters (tag, size as limit,
offset, per-fold) as keyword filters of the listing call, and per the
no-results handling it returns an empty result in the requested output
format when the server reports no results. -/
def _list_all (srv : Server) (function : String) (offset size : Option Int)
    (id task setup flow uploader : Option (List Int)) (tag : Option String)
    (per_fold : Option String) (sort_order : Option String)
    (output_format : String) : Except PyError EvalsResult × List NetCall :=
  let kwargs := optKw "tag" tag ++ optKw "limit" (size.map toString)
      ++ optKw "offset" (offset.map toString) ++ optKw "per_fold" per_fold
  let path := buildApiCall function kwargs id task setup flow uploader sort_order
  match srv.evalsDoc path with
  | none => (.ok (emptyResult output_format), [.apiGet path])
  | some doc => (listEvalsOfDoc doc output_format, [.apiGet path])

/-- The usage-error message raised at lines 69-70. -/
def invalidFormatMsg : String :=
  "Invalid output format selected. Only \x27object\x27, \x27dataframe\x27, or \x27dict\x27 applicable."

/-- `list_evaluations` (lines 14-88): validate the output format before
anything else (an invalid format raises with an empty network trace), turn
the per-fold flag into the lowercased string of the Python bool, and
delegate to the listing helper. -/
def list_evaluations (srv : Server) (function : String)
    (offset size : Option Int) (id task setup flow uploader : Option (List Int))
    (tag : Option String) (per_fold : Option Bool) (sort_order : Option String)
    (output_format : String) : Except PyError EvalsResult × List NetCall :=
  if output_format ∉ (["dataframe", "dict", "object"] : List String) then
    (.error (.valueError invalidFormatMsg), [])
  else
    let per_fold_str := per_fold.map (fun b => if b then "true" else "false")
    _list_all srv function offset size id task setup flow uploader tag
      per_fold_str sort_order output_format

/-- First-occurrence-order deduplication with an explicit seen list;
`dedupSeen [] l` is pandas `Series.unique()` on the column `l`. -/
def dedupSeen {α : Type} [DecidableEq α] (seen : List α) : List α → List α
  | [] => []
  | x :: xs => if x ∈ seen then dedupSeen seen xs else x :: dedupSeen (seen ++ [x]) xs

/-- Pandas `Series.unique()`: the distinct elements in order of first
appearance. -/
def dedupFirst {α : Type} [DecidableEq α] (l : List α) : List α :=
  dedupSeen [] l

/-- `numpy.split(l, k)` with an integer section count: split into `k`
pieces of size `len(l) / k` each. Structural helper on the section count. -/
def splitIntoK : List Int → Nat → Nat → List (List Int)
  | _, 0, _ => []
  | l, k + 1, sz => l.take sz :: splitIntoK (l.drop sz) k sz

/-- `numpy.split(l, k)` for an integer `k`: numpy raises `ValueError` when
the length is not an exact multiple of the section count. -/
def npSplitSections (l : List Int) (k : Nat) : Except PyError (List (List Int)) :=
  if k = 0 then .error (.valueError "number sections must be larger than 0.")
  else if l.length % k ≠ 0 then
    .error (.valueError "array split does not result in an equal division")
  else .ok (splitIntoK l k (l.length / k))

/-- Lines 316-321: flatten the `parameters` cell of a setup row into a list
of (name, value) tuples; a `None` cell becomes the empty list. -/
def flattenParams : Option (List SetupParam) → List (String × String)
  | none => []
  | some l => l.map (fun p => (p.parameter_name, p.value))

/-- A row of the merged table: the evaluation row plus the `parameters`
cell contributed by the join; `none` is the NaN a pandas left merge puts
in right-table columns of unmatched rows. -/
abbrev MergedRow := ParsedEval × Option (List (String × String))

/-- `pd.merge(evals, setups, on=..., how=...)` with a left join on
`setup_id` (line 324): every left row is kept in order; each match in the
right table produces one output row, and a left row without any match
produces a single row with NaN in the right-table columns. -/
def leftMerge (evals : List ParsedEval)
    (setups : List (Int × List (String × String))) : List MergedRow :=
  evals.flatMap (fun e =>
    match setups.filter (fun s => decide (s.1 = e.setup_id)) with
    | [] => [(e, none)]
    | ms => ms.map (fun s => (e, some s.2)))

/-- Cell values of the merged table, as Python objects. -/
inductive PyVal where
  | vInt (n : Int)
  | vStr (s : String)
  | vFloat (src : String)
  | vJson (src : String)
  | vPairs (l : List (String × String))
  | vNone
  | vNaN
  deriving DecidableEq

/-- Column names of the merged table: the evaluation columns followed by
the `parameters` column contributed by the setup table. -/
def mergedCols : List String := evalCols ++ ["parameters"]

/-- The cell values of one merged row, in column order. -/
def cells (r : MergedRow) : List PyVal :=
  [.vInt r.1.run_id, .vInt r.1.task_id, .vInt r.1.setup_id, .vInt r.1.flow_id,
   .vStr r.1.flow_name, .vStr r.1.data_id, .vStr r.1.data_name,
   .vStr r.1.function, .vStr r.1.upload_time,
   (match r.1.value with | none => .vNone | some s => .vFloat s),
   (match r.1.values with | none => .vNone | some s => .vJson s),
   (match r.1.array_data with | none => .vNone | some s => .vStr s),
   (match r.2 with | none => .vNaN | some l => .vPairs l)]

/-- One row of `df.to_dict(orient=index)`: the column-to-value mapping. -/
def rowDict (r : MergedRow) : List (String × PyVal) :=
  mergedCols.zip (cells r)

/-- Association of consecutive indices starting at `s` to list elements. -/
def zipIdxFrom {α : Type} (s : Nat) : List α → List (Nat × α)
  | [] => []
  | x :: xs => (s, x) :: zipIdxFrom (s + 1) xs

/-- `df.to_dict(orient=index)` on the merged table (line 329): a mapping
from the fresh integer index of each row to that row column-to-value
mapping. -/
def toDictIndex (rows : List MergedRow) : List (Nat × List (String × PyVal)) :=
  zipIdxFrom 0 (rows.map rowDict)

/-- Result of `list_evaluations_setups`, one constructor per output shape. -/
inductive SetupsResult where
  | frame (cols : List String) (rows : List MergedRow)
  | dictIndex (d : List (Nat × List (String × PyVal)))
  deriving DecidableEq

/-- The batch loop of lines 309-313: per chunk, fetch the setup rows
(`openml.setups.list_setups` is out of scope, abstracted by
`Server.setups`; per the spec-modelled listing helpers it yields an empty
dataframe when the server has no matching setups), then drop the flow id
column and concatenate. A batch with no rows gives a column-less empty
dataframe, on which `drop` with the flow id label raises KeyError, after
the network call of that batch has already happened; so the loop stops
at the first empty batch with that error. -/
def fetchSetupChunks (srv : Server) :
    List (List Int) → List (Int × Option (List SetupParam)) → List NetCall →
      Except PyError (List (Int × Option (List SetupParam))) × List NetCall
  | [], acc, tr => (.ok acc, tr)
  | c :: cs, acc, tr =>
    let rows := srv.setups c
    if rows.isEmpty then
      (.error (.keyError "[\x27flow_id\x27] not found in axis"),
       tr ++ [NetCall.setupsFetch c])
    else
      fetchSetupChunks srv cs
        (acc ++ rows.map (fun s => (s.setup_id, s.parameters)))
        (tr ++ [NetCall.setupsFetch c])

/-- `list_evaluations_setups` (lines 245-329): fetch the evaluations as a
dataframe; when non-empty, deduplicate the setup ids, split them with
`numpy.split` into `((n - 1) // 100) + 1` sections, fetch each batch of
setups and drop its flow id column (KeyError on an empty batch, see
`fetchSetupChunks`), flatten the parameters, and left-merge onto the
evaluations by setup id; when empty, keep the fresh empty dataframe. The
final branch returns the table itself for the dataframe format and
`to_dict(orient=index)` for anything else. -/
def list_evaluations_setups (srv : Server) (function : String)
    (offset size : Option Int) (id task setup flow uploader : Option (List Int))
    (tag : Option String) (per_fold : Option Bool) (sort_order : Option String)
    (output_format : String) : Except PyError SetupsResult × List NetCall :=
  match list_evaluations srv function offset size id task setup flow uploader
      tag per_fold sort_order "dataframe" with
  | (Except.error e, tr) => (.error e, tr)
  | (Except.ok r, tr) =>
    let evalRows := rowsOf r
    if evalRows.length ≠ 0 then
      let uniq := dedupFirst (evalRows.map ParsedEval.setup_id)
      match npSplitSections uniq ((uniq.length - 1) / 100 + 1) with
      | Except.error e => (.error e, tr)
      | Except.ok chunks =>
        match fetchSetupChunks srv chunks [] tr with
        | (Except.error e, tr2) => (.error e, tr2)
        | (Except.ok tbl, tr2) =>
          let setupsTbl := tbl.map (fun s => (s.1, flattenParams s.2))
          let df := leftMerge evalRows setupsTbl
          if output_format = "dataframe" then (.ok (.frame mergedCols df), tr2)
          else (.ok (.dictIndex (toDictIndex df)), tr2)
    else
      let df : List MergedRow := []
      if output_format = "dataframe" then (.ok (.frame [] df), tr)
      else (.ok (.dictIndex (toDictIndex df)), tr)

/-- The last element of the record list carrying the given run id, the
record whose payload survives the overwriting accumulation. -/
def lastWith (k : Int) : List RawEval → Option RawEval
  | [] => none
  | r :: rs =>
    match lastWith k rs with
    | some x => some x
    | none => if r.run_id = k then some r else none

/-- Number of populated fields among value, values and array data of a
parsed record. -/
def nonNullCount (p : ParsedEval) : Nat :=
  (if p.value.isSome then 1 else 0) + (if p.values.isSome then 1 else 0)
    + (if p.array_data.isSome then 1 else 0)

/-- The shape asserted by the spec for the three optional fields: exactly
one populated, or none at all. -/
def mutexShape (p : ParsedEval) : Prop :=
  nonNullCount p = 1 ∨ nonNullCount p = 0

instance (p : ParsedEval) : Decidable (mutexShape p) := by
  unfold mutexShape
  infer_instance

/-- Number of the three optional tags present in a raw XML record. -/
def rawTagCount (r : RawEval) : Nat :=
  (if r.value.isSome then 1 else 0) + (if r.values.isSome then 1 else 0)
    + (if r.array_data.isSome then 1 else 0)

/-- Whether the pattern word starts the character list. -/
def leadsWith : List Char → List Char → Bool
  | [], _ => true
  | _ :: _, [] => false
  | a :: as, b :: bs => if a = b then leadsWith as bs else false

/-- Whether the pattern word occurs somewhere in the character list. -/
def occursIn : List Char → List Char → Bool
  | pat, [] => pat.isEmpty
  | pat, c :: cs => if leadsWith pat (c :: cs) then true else occursIn pat cs

/-- Whether the second string occurs as a contiguous substring of the
first. -/
def strContainsSub (s pat : String) : Bool :=
  occursIn pat.toList s.toList

/-- A raw record carrying both the scalar value tag and the per-fold
values tag, which the server wire format does not exclude and the parser
does not reject. -/
def rBothTags : RawEval :=
  { run_id := 1, task_id := 2, setup_id := 3, flow_id := 4, flow_name := "fn",
    data_id := "5", data_name := "dn", function := "predictive_accuracy",
    upload_time := "2019-01-01", value := some "0.5",
    values := some "[0.1, 0.2]", array_data := none }

/-- An evaluation-list document holding the double-tagged record. -/
def docBothTags : EvalsDoc := ⟨["oml:evaluations"], [rBothTags], "d"⟩

/-- A raw record carrying only the scalar value tag. -/
def rOneTag : RawEval :=
  { run_id := 7, task_id := 2, setup_id := 3, flow_id := 4, flow_name := "fn",
    data_id := "5", data_name := "dn", function := "predictive_accuracy",
    upload_time := "2019-01-01", value := some "0.5",
    values := none, array_data := none }

/-- A measure-list document missing the expected top-level tag, with a
marker as its raw rendering. -/
def mdocMarker : MeasuresDoc :=
  ⟨["oml:nothing"], .many ["area_under_roc_curve"], "RAW_PAYLOAD_MARKER"⟩

/-- One `/<filter-name>/<value>` path segment, as the spec words it. -/
def segSpec (nm v : String) : String := "/" ++ nm ++ "/" ++ v

/-- The optional identifier-list segment of the specified path shape,
rendered as comma-joined integers. -/
def idSegSpec (nm : String) : Option (List Int) → String
  | none => ""
  | some l => segSpec nm (commaJoin l)

/-- The optional plain-string segment of the specified path shape. -/
def strSegSpec (nm : String) : Option String → String
  | none => ""
  | some s => segSpec nm s

/-- The query path as the spec describes it: the fixed head, then one
segment per keyword filter, then the identifier-list filters in the fixed
order run, task, setup, flow, uploader, then the sort order. This
definition follows the wording of the spec, to be compared against
`buildApiCall`, which follows the source. -/
def apiCallSpec (function : String) (kwargs : List (String × String))
    (id task setup flow uploader : Option (List Int))
    (sort_order : Option String) : String :=
  "evaluation/list/function/" ++ function
    ++ String.join (kwargs.map (fun p => segSpec p.1 p.2))
    ++ idSegSpec "run" id ++ idSegSpec "task" task ++ idSegSpec "setup" setup
    ++ idSegSpec "flow" flow ++ idSegSpec "uploader" uploader
    ++ strSegSpec "sort_order" sort_order

/-- A sample parsed evaluation row with setup id 5, used to instantiate
the join theorems. -/
def eRow5 : ParsedEval :=
  { run_id := 1, task_id := 1, setup_id := 5, flow_id := 1,
    flow_name := "f", data_id := "1", data_name := "d",
    function := "acc", upload_time := "t", value := none,
    values := none, array_data := none }

/-- The cell of the tabular representation at a row index and a column
name. -/
def frameCell (rows : List MergedRow) (i : Nat) (c : String) : Option PyVal :=
  (rows[i]?).bind (fun r => alookup c (rowDict r))

/-- The cell of the row-indexed mapping representation at a row index and
a column name. -/
def dictCell (d : List (Nat × List (String × PyVal))) (i : Nat) (c : String) :
    Option PyVal :=
  (alookup i d).bind (fun row => alookup c row)

/-- A raw evaluation record with setup id 7, used to drive the join
pipeline on concrete servers. -/
def rEvalS7 : RawEval :=
  { run_id := 1, task_id := 2, setup_id := 7, flow_id := 4, flow_name := "fn",
    data_id := "9", data_name := "dn", function := "acc",
    upload_time := "t", value := some "0.5", values := none,
    array_data := none }

/-- A server returning one evaluation and a matching setup record. -/
def srvMatched : Server :=
  { evalsDoc := fun _ => some ⟨["oml:evaluations"], [rEvalS7], "d"⟩,
    setups := fun _ => [⟨7, 4, some [⟨"max_depth", "3"⟩]⟩] }

/-- A server returning one evaluation and no setup records at all, so its
one batch fetch yields an empty (column-less) setup dataframe. -/
def srvNoSetups : Server :=
  { evalsDoc := fun _ => some ⟨["oml:evaluations"], [rEvalS7], "d"⟩,
    setups := fun _ => [] }

/-- A raw evaluation record with run id 1 and setup id 5. -/
def rEvalRun1Setup5 : RawEval :=
  { run_id := 1, task_id := 2, setup_id := 5, flow_id := 4, flow_name := "fn",
    data_id := "9", data_name := "dn", function := "acc",
    upload_time := "t", value := some "0.5", values := none,
    array_data := none }

/-- A raw evaluation record with run id 2 and setup id 7. -/
def rEvalRun2Setup7 : RawEval :=
  { run_id := 2, task_id := 2, setup_id := 7, flow_id := 4, flow_name := "fn",
    data_id := "9", data_name := "dn", function := "acc",
    upload_time := "t", value := some "0.6", values := none,
    array_data := none }

/-- A server returning two evaluations with setup ids 5 and 7, whose
single non-empty batch fetch returns a setup record for id 5 only: the
row with setup id 7 stays unmatched in the left merge. -/
def srvPartialSetups : Server :=
  { evalsDoc := fun _ =>
      some ⟨["oml:evaluations"], [rEvalRun1Setup5, rEvalRun2Setup7], "d"⟩,
    setups := fun _ => [⟨5, 4, some [⟨"a", "b"⟩]⟩] }

/-- A server whose evaluation listing reports no results. -/
def srvEmptyEvals : Server :=
  { evalsDoc := fun _ => none, setups := fun _ => [] }

/-- An evaluation record with run and setup id given by the argument, to
build responses with many distinct setup ids. -/
def mkDistinctEval (n : Nat) : RawEval :=
  { run_id := n, task_id := 0, setup_id := n, flow_id := 0, flow_name := "",
    data_id := "", data_name := "", function := "", upload_time := "",
    value := none, values := none, array_data := none }

/-- A response document with 101 records carrying 101 distinct setup
ids. -/
def docDistinct101 : EvalsDoc :=
  ⟨["oml:evaluations"], (List.range 101).map (fun n => mkDistinctEval n), "d"⟩

/-- A server whose evaluation listing returns the 101-record document. -/
def srvDistinct101 : Server :=
  { evalsDoc := fun _ => some docDistinct101, setups := fun _ => [] }

@[simp] theorem alookup_nil {κ α : Type} [DecidableEq κ] (k : κ) :
    alookup (α := α) k [] = none := rfl

@[simp] theorem alookup_cons {κ α : Type} [DecidableEq κ] (k : κ) (p : κ × α)
    (ps : List (κ × α)) :
    alookup k (p :: ps) = if p.1 = k then some p.2 else alookup k ps := rfl

@[simp] theorem hasKey_nil {κ α : Type} [DecidableEq κ] (k : κ) :
    hasKey (α := α) k [] = false := rfl

@[simp] theorem hasKey_cons {κ α : Type} [DecidableEq κ] (k : κ) (p : κ × α)
    (ps : List (κ × α)) :
    hasKey k (p :: ps) = if p.1 = k then true else hasKey k ps := rfl

theorem hasKey_iff_mem {κ α : Type} [DecidableEq κ] (k : κ) (m : List (κ × α)) :
    hasKey k m = true ↔ k ∈ m.map Prod.fst := by
  induction m with
  | nil => simp
  | cons p ps ih =>
    by_cases h : p.1 = k
    · simp [h]
    · simp [h, ih, Ne.symm h]

theorem hasKey_eq_lookup_isSome {κ α : Type} [DecidableEq κ] (k : κ)
    (m : List (κ × α)) : hasKey k m = (alookup k m).isSome := by
  induction m with
  | nil => simp
  | cons p ps ih =>
    by_cases h : p.1 = k
    · simp [h]
    · simp [h, ih]

theorem alookup_append {κ α : Type} [DecidableEq κ] (k : κ)
    (m l : List (κ × α)) :
    alookup k (m ++ l)
      = match alookup k m with
        | some v => some v
        | none => alookup k l := by
  induction m with
  | nil => simp
  | cons p ps ih =>
    by_cases h : p.1 = k
    · simp [h]
    · simp [h, ih]

theorem alookup_map_upd {α : Type} (k : Int) (v : α) (m : List (Int × α)) :
    alookup k (m.map (fun p => if p.1 = k then (k, v) else p))
      = (alookup k m).map (fun _ => v) := by
  induction m with
  | nil => simp
  | cons p ps ih =>
    by_cases h : p.1 = k
    · simp [h]
    · simp [h, ih]

theorem alookup_map_upd_other {α : Type} (k kq : Int) (hne : kq ≠ k) (v : α)
    (m : List (Int × α)) :
    alookup kq (m.map (fun p => if p.1 = k then (k, v) else p))
      = alookup kq m := by
  induction m with
  | nil => simp
  | cons p ps ih =>
    by_cases h : p.1 = k
    · simp [h, ih, Ne.symm hne]
    · simp [h, ih]

theorem alookup_odSet_self {α : Type} (k : Int) (v : α) (m : List (Int × α)) :
    alookup k (odSet m k v) = some v := by
  by_cases h : hasKey k m
  · rw [odSet, if_pos h, alookup_map_upd]
    have hs : (alookup k m).isSome := by rw [← hasKey_eq_lookup_isSome, h]
    cases hm : alookup k m with
    | none => rw [hm] at hs; simp at hs
    | some w => simp
  · rw [odSet, if_neg h, alookup_append]
    have hn : alookup k m = none := by
      have := hasKey_eq_lookup_isSome k m
      rw [eq_false_of_ne_true h] at this
      cases hm : alookup k m with
      | none => rfl
      | some w => rw [hm] at this; simp at this
    simp [hn]

theorem alookup_odSet_other {α : Type} (k kq : Int) (hne : kq ≠ k) (v : α)
    (m : List (Int × α)) :
    alookup kq (odSet m k v) = alookup kq m := by
  by_cases h : hasKey k m
  · rw [odSet, if_pos h, alookup_map_upd_other _ _ hne]
  · rw [odSet, if_neg h, alookup_append]
    cases hm : alookup kq m with
    | some w => simp
    | none => simp [Ne.symm hne]

theorem keys_odSet {α : Type} (k : Int) (v : α) (m : List (Int × α)) :
    (odSet m k v).map Prod.fst
      = if hasKey k m then m.map Prod.fst else m.map Prod.fst ++ [k] := by
  by_cases h : hasKey k m
  · rw [odSet, if_pos h, if_pos h, List.map_map]
    have hf : (Prod.fst ∘ fun p : Int × α => if p.1 = k then (k, v) else p)
        = Prod.fst := by
      funext p
      by_cases hp : p.1 = k
      · simp [hp]
      · simp [hp]
    rw [hf]
  · rw [odSet, if_neg h, if_neg h, List.map_append]
    rfl

theorem odSet_length_le {α : Type} (k : Int) (v : α) (m : List (Int × α)) :
    m.length ≤ (odSet m k v).length := by
  by_cases h : hasKey k m
  · simp [odSet, h]
  · simp [odSet, h]

theorem mem_snd_odSet {α : Type} (p : α) (k : Int) (v : α) (m : List (Int × α)) :
    p ∈ (odSet m k v).map Prod.snd → p ∈ m.map Prod.snd ∨ p = v := by
  by_cases h : hasKey k m
  · rw [odSet, if_pos h, List.map_map]
    intro hp
    obtain ⟨q, hq, he⟩ := List.mem_map.mp hp
    by_cases h2 : q.1 = k
    · right
      rw [← he]
      simp [h2]
    · left
      refine List.mem_map.mpr ⟨q, hq, ?_⟩
      rw [← he]
      simp [h2]
  · rw [odSet, if_neg h, List.map_append]
    intro hp
    rcases List.mem_append.mp hp with h1 | h2
    · exact Or.inl h1
    · right
      simpa using h2

theorem buildKeys_aux (rs : List RawEval) :
    ∀ m : List (Int × ParsedEval),
      ((rs.foldl (fun m r => odSet m r.run_id (parseOne r)) m).map Prod.fst)
        = m.map Prod.fst ++ dedupSeen (m.map Prod.fst) (rs.map RawEval.run_id) := by
  induction rs with
  | nil => intro m; simp [dedupSeen]
  | cons r rs ih =>
    intro m
    simp only [List.foldl_cons, List.map_cons]
    rw [ih]
    by_cases h : hasKey r.run_id m
    · rw [keys_odSet, if_pos h]
      rw [dedupSeen, if_pos ((hasKey_iff_mem _ _).mp h)]
    · rw [keys_odSet, if_neg h]
      rw [dedupSeen, if_neg (fun hmem => h ((hasKey_iff_mem _ _).mpr hmem))]
      rw [List.append_assoc]
      rfl

theorem buildLookup_aux (rs : List RawEval) :
    ∀ (m : List (Int × ParsedEval)) (k : Int),
      alookup k (rs.foldl (fun m r => odSet m r.run_id (parseOne r)) m)
        = match lastWith k rs with
          | some r => some (parseOne r)
          | none => alookup k m := by
  induction rs with
  | nil => intro m k; simp [lastWith]
  | cons r rs ih =>
    intro m k
    simp only [List.foldl_cons]
    rw [ih]
    cases hl : lastWith k rs with
    | some x => simp [lastWith, hl]
    | none =>
      by_cases hk : r.run_id = k
      · subst hk
        simp [lastWith, hl, alookup_odSet_self]
      · simp [lastWith, hl, hk,
          alookup_odSet_other _ _ (fun he => hk he.symm)]

theorem mem_buildEvals_aux (rs : List RawEval) :
    ∀ (m : List (Int × ParsedEval)) (p : ParsedEval),
      p ∈ ((rs.foldl (fun m r => odSet m r.run_id (parseOne r)) m).map Prod.snd) →
      p ∈ m.map Prod.snd ∨ ∃ r ∈ rs, p = parseOne r := by
  induction rs with
  | nil => intro m p hp; exact Or.inl hp
  | cons r rs ih =>
    intro m p hp
    rcases ih _ p hp with hin | ⟨x, hx, he⟩
    · rcases mem_snd_odSet _ _ _ _ hin with h1 | h2
      · exact Or.inl h1
      · exact Or.inr ⟨r, List.mem_cons_self r rs, h2⟩
    · exact Or.inr ⟨x, List.mem_cons_of_mem r hx, he⟩

theorem foldl_length_le (rs : List RawEval) :
    ∀ m : List (Int × ParsedEval),
      m.length ≤ (rs.foldl (fun m r => odSet m r.run_id (parseOne r)) m).length := by
  induction rs with
  | nil => intro m; simp
  | cons r rs ih =>
    intro m
    exact le_trans (odSet_length_le _ _ _) (ih _)

theorem buildEvals_ne_nil (r : RawEval) (rs : List RawEval) :
    buildEvals (r :: rs) ≠ [] := by
  intro hnil
  have h1 : 1 ≤ (buildEvals (r :: rs)).length := by
    have := foldl_length_le rs (odSet [] r.run_id (parseOne r))
    simpa [buildEvals, odSet] using this
  rw [hnil] at h1
  simp at h1

/-- Every record of a successful parse result comes from some input record
of the document, via the field projection of the loop body. -/
theorem rowsOf_subset_parse (doc : EvalsDoc) (fmt : String) (res : EvalsResult)
    (hok : listEvalsOfDoc doc fmt = .ok res) :
    ∀ p ∈ rowsOf res, ∃ r ∈ doc.evaluations, p = parseOne r := by
  intro p hp
  have hmem : p ∈ (buildEvals doc.evaluations).map Prod.snd := by
    by_cases htag : "oml:evaluations" ∈ doc.topKeys
    · unfold listEvalsOfDoc at hok
      rw [if_pos htag] at hok
      by_cases hdf : fmt = "dataframe"
      · rw [if_pos hdf] at hok
        cases hm : (buildEvals doc.evaluations).map Prod.snd with
        | nil =>
          rw [hm] at hok
          exact absurd hok (by simp)
        | cons q qs =>
          rw [hm] at hok
          injection hok with h
          rw [← h] at hp
          simpa [rowsOf] using hp
      · rw [if_neg hdf] at hok
        by_cases hob : fmt = "object"
        · rw [if_pos hob] at hok
          injection hok with h
          rw [← h] at hp
          simpa [rowsOf] using hp
        · rw [if_neg hob] at hok
          injection hok with h
          rw [← h] at hp
          simpa [rowsOf] using hp
    · unfold listEvalsOfDoc at hok
      rw [if_neg htag] at hok
      exact absurd hok (by simp)
  have := mem_buildEvals_aux doc.evaluations [] p (by simpa [buildEvals] using hmem)
  exact this.resolve_left (by simp)

/-- C8: parsed evaluation records are accumulated in an order-preserving
mapping keyed by run identifier, in server response order: the key
sequence is the run identifiers in first-occurrence order, and the payload
stored under a run identifier is the parse of the LAST response record
carrying that identifier, so a later duplicate silently overwrites the
earlier entry. -/
theorem c8_ordered_dict_overwrite (records : List RawEval) :
    (buildEvals records).map Prod.fst = dedupFirst (records.map RawEval.run_id) ∧
    ∀ k : Int, alookup k (buildEvals records) = (lastWith k records).map parseOne := by
  constructor
  · have := buildKeys_aux records []
    simpa [buildEvals, dedupFirst] using this
  · intro k
    have := buildLookup_aux records [] k
    rw [buildEvals] at *
    rw [this]
    cases lastWith k records <;> simp

/-- C10: in the dataframe output format the parser reads the first
accumulated row unconditionally to obtain the column names, so a parsed
response with zero evaluation records raises IndexError instead of
returning an empty table, while any response with at least one record
yields a dataframe; the conversion is total only when a record was
parsed. -/
theorem c10_empty_dataframe_index_error (doc : EvalsDoc)
    (htag : "oml:evaluations" ∈ doc.topKeys) :
    (doc.evaluations = [] →
      listEvalsOfDoc doc "dataframe" = .error .indexError) ∧
    (doc.evaluations ≠ [] →
      ∃ rows, listEvalsOfDoc doc "dataframe" = .ok (.frame evalCols rows)
        ∧ rows ≠ []) := by
  constructor
  · intro he
    simp [listEvalsOfDoc, htag, he, buildEvals]
  · intro hne
    cases hrec : doc.evaluations with
    | nil => exact absurd hrec hne
    | cons r rs =>
      have hb : buildEvals (r :: rs) ≠ [] := buildEvals_ne_nil r rs
      cases hm : (buildEvals (r :: rs)).map Prod.snd with
      | nil => exact absurd (List.map_eq_nil_iff.mp hm) hb
      | cons q qs =>
        refine ⟨q :: qs, ?_, by simp⟩
        simp [listEvalsOfDoc, htag, hrec, hm]

/-- Closed instance discharging the hypotheses of the C10 theorem: a
response document carrying the collection tag but no records makes the
dataframe conversion fail with IndexError. -/
theorem c10_empty_dataframe_index_error_witness :
    listEvalsOfDoc ⟨["oml:evaluations"], [], "doc"⟩ "dataframe"
      = .error .indexError :=
  (c10_empty_dataframe_index_error ⟨["oml:evaluations"], [], "doc"⟩
    (by decide)).1 rfl

/-- C1 counterexample: on a response record that carries both the scalar
value tag and the values tag, the parser returns a record with two of the
three fields non-null, so the claimed exclusive shape is violated. -/
theorem c1_mutex_counterexample :
    listEvalsOfDoc docBothTags "dict" = .ok (.dicts [(1, parseOne rBothTags)])
      ∧ ¬ mutexShape (parseOne rBothTags) := by
  constructor
  · rfl
  · decide

/-- C1 amended: each of the three fields is populated exactly when the
corresponding tag is present in the raw record, so the three shapes are
mutually exclusive for every returned record provided each response
record carries at most one of the three tags; the parser itself does not
enforce the exclusivity. -/
theorem c1_mutex_under_single_tag (doc : EvalsDoc) (fmt : String)
    (res : EvalsResult) (hok : listEvalsOfDoc doc fmt = .ok res)
    (hsrv : ∀ r ∈ doc.evaluations, rawTagCount r ≤ 1) :
    (∀ r ∈ doc.evaluations, nonNullCount (parseOne r) = rawTagCount r) ∧
    ∀ p ∈ rowsOf res, mutexShape p := by
  constructor
  · intro r _
    rfl
  · intro p hp
    obtain ⟨r, hr, hpe⟩ := rowsOf_subset_parse doc fmt res hok p hp
    have hle : nonNullCount p ≤ 1 := by
      rw [hpe]
      exact hsrv r hr
    rcases Nat.le_one_iff_eq_zero_or_eq_one.mp hle with h | h
    · exact Or.inr h
    · exact Or.inl h

/-- Closed instance discharging the hypotheses of the C1 theorem on a
single-tag record. -/
theorem c1_mutex_under_single_tag_witness :
    mutexShape (parseOne rOneTag) :=
  (c1_mutex_under_single_tag ⟨["oml:evaluations"], [rOneTag], "d"⟩ "dict"
      (.dicts [(7, parseOne rOneTag)]) (by rfl) (by decide)).2
    (parseOne rOneTag) (by decide)

/-- C6 counterexample: the measure-list parser raises its value error with
a fixed message; the raw parsed structure (here a marker string) does not
occur in the message, so the error does not embed the offending payload
as the claim states for both parsers. -/
theorem c6_measures_message_counterexample :
    list_evaluation_measures mdocMarker
        = .error (.valueError measuresMissingMsg)
      ∧ strContainsSub measuresMissingMsg mdocMarker.strRepr = false := by
  constructor
  · rfl
  · decide

/-- C6 amended: on a parsed response lacking the expected top-level
collection tag, the evaluation-list parser raises a value error whose
message embeds the raw parsed structure, while the measure-list parser
raises a value error with a fixed message that does not mention the
payload; both errors propagate to the caller unrecovered. -/
theorem c6_missing_tag_errors (doc : EvalsDoc) (fmt : String)
    (mdoc : MeasuresDoc)
    (h1 : "oml:evaluations" ∉ doc.topKeys)
    (h2 : "oml:evaluation_measures" ∉ mdoc.topKeys) :
    listEvalsOfDoc doc fmt
        = .error (.valueError (evalsMissingMsg ++ doc.strRepr))
      ∧ list_evaluation_measures mdoc
        = .error (.valueError measuresMissingMsg) := by
  constructor
  · simp [listEvalsOfDoc, h1]
  · simp [list_evaluation_measures, h2]

/-- Closed instance discharging the hypotheses of the C6 theorem on
concrete documents missing their tags. -/
theorem c6_missing_tag_errors_witness :
    listEvalsOfDoc ⟨["oml:other"], [], "PAYLOAD"⟩ "dict"
        = .error (.valueError (evalsMissingMsg ++ "PAYLOAD"))
      ∧ list_evaluation_measures ⟨["oml:other"], .many [], "P2"⟩
        = .error (.valueError measuresMissingMsg) :=
  c6_missing_tag_errors ⟨["oml:other"], [], "PAYLOAD"⟩ "dict"
    ⟨["oml:other"], .many [], "P2"⟩ (by decide) (by decide)

theorem foldl_append_join (l : List String) :
    ∀ a : String, l.foldl (fun r s => r ++ s) a = a ++ String.join l := by
  induction l with
  | nil => intro a; simp [String.join, String.append_empty]
  | cons s ls ih =>
    intro a
    have hj : String.join (s :: ls) = s ++ String.join ls := by
      have h0 : String.join (s :: ls)
          = List.foldl (fun r t => r ++ t) ("" ++ s) ls := rfl
      rw [h0, ih, String.empty_append]
    simp only [List.foldl_cons]
    rw [ih, hj, String.append_assoc]

theorem join_seg_cons (p : String × String) (ps : List (String × String)) :
    String.join ((p :: ps).map (fun q => segSpec q.1 q.2))
      = segSpec p.1 p.2 ++ String.join (ps.map (fun q => segSpec q.1 q.2)) := by
  have h0 : String.join ((p :: ps).map (fun q => segSpec q.1 q.2))
      = List.foldl (fun r t => r ++ t) ("" ++ segSpec p.1 p.2)
          (ps.map (fun q => segSpec q.1 q.2)) := rfl
  rw [h0, foldl_append_join, String.empty_append]

theorem foldl_seg_append (kwargs : List (String × String)) :
    ∀ a : String,
      kwargs.foldl (fun acc p => acc ++ "/" ++ p.1 ++ "/" ++ p.2) a
        = a ++ String.join (kwargs.map (fun p => segSpec p.1 p.2)) := by
  induction kwargs with
  | nil => intro a; simp [String.join, String.append_empty]
  | cons p ps ih =>
    intro a
    simp only [List.foldl_cons]
    rw [ih, join_seg_cons]
    simp [segSpec, String.append_assoc]

/-- C7: for every combination of filter arguments the query builder of
`_list_evaluations` produces exactly the path of the specified shape:
`evaluation/list/function/<metric>` followed by one
`/<filter-name>/<comma-joined-values>` segment per present filter, keyword
filters first, then run, task, setup, flow, uploader and sort order, in
this fixed order, with identifier lists rendered as comma-joined
integers. -/
theorem c7_api_call_shape (function : String) (kwargs : List (String × String))
    (id task setup flow uploader : Option (List Int))
    (sort_order : Option String) :
    buildApiCall function kwargs id task setup flow uploader sort_order
      = apiCallSpec function kwargs id task setup flow uploader sort_order := by
  simp only [buildApiCall, apiCallSpec, foldl_seg_append]
  cases id <;> cases task <;> cases setup <;> cases flow <;> cases uploader
    <;> cases sort_order
    <;> simp [idSegSpec, strSegSpec, segSpec, String.append_assoc,
          String.append_empty]

theorem filter_key_nil {α : Type} (k : Int) (l : List (Int × α))
    (h : k ∉ l.map Prod.fst) :
    l.filter (fun s => decide (s.1 = k)) = [] := by
  induction l with
  | nil => rfl
  | cons p ps ih =>
    have hpk : p.1 ≠ k := by
      intro he
      exact h (by simp [← he])
    have hk : k ∉ ps.map Prod.fst := by
      intro hm
      exact h (by simp [hm])
    simp [List.filter_cons, hpk, ih hk]

theorem filter_key_of_nodup {α : Type} (k : Int) (l : List (Int × α))
    (hnd : (l.map Prod.fst).Nodup) :
    l.filter (fun s => decide (s.1 = k))
      = match alookup k l with
        | some v => [(k, v)]
        | none => [] := by
  induction l with
  | nil => simp
  | cons p ps ih =>
    rw [List.map_cons] at hnd
    obtain ⟨hp, hps⟩ := List.nodup_cons.mp hnd
    by_cases h : p.1 = k
    · have hk : k ∉ ps.map Prod.fst := h ▸ hp
      obtain ⟨p1, p2⟩ := p
      subst h
      simp [List.filter_cons, filter_key_nil _ _ hk]
    · simp [List.filter_cons, h, ih hps]

/-- Under a duplicate-free setup table, the left merge pairs every
evaluation row, in order, with the looked-up parameter list of its setup
id, `none` when the id has no setup record. -/
theorem leftMerge_eq_map (evals : List ParsedEval)
    (setups : List (Int × List (String × String)))
    (hnd : (setups.map Prod.fst).Nodup) :
    leftMerge evals setups
      = evals.map (fun e => (e, alookup e.setup_id setups)) := by
  induction evals with
  | nil => rfl
  | cons e es ih =>
    rw [leftMerge, List.flatMap_cons, ← leftMerge, ih,
      filter_key_of_nodup e.setup_id setups hnd]
    cases halk : alookup e.setup_id setups with
    | none => simp [halk]
    | some v => simp [halk]

/-- C3 amended: the setup join is a left join keyed on setup identifier:
with a duplicate-free setup table (one record per setup id, as a keyed
setup listing produces) the joined table has exactly one row per original
evaluation row in order, pairing each row with the parameter list of its
setup when a record exists and with the missing value NaN (not an empty
list) when no setup record matches; an empty parameter list arises from a
matched setup whose parameter dictionary is null. -/
theorem c3_left_join_shape (evals : List ParsedEval)
    (setups : List (Int × List (String × String)))
    (hnd : (setups.map Prod.fst).Nodup) :
    (leftMerge evals setups).length = evals.length ∧
    leftMerge evals setups
      = evals.map (fun e => (e, alookup e.setup_id setups)) ∧
    flattenParams none = [] := by
  refine ⟨?_, leftMerge_eq_map evals setups hnd, rfl⟩
  rw [leftMerge_eq_map evals setups hnd, List.length_map]

/-- Closed instance discharging the hypothesis of the C3 theorem on a
one-row table with a matching setup record. -/
theorem c3_left_join_shape_witness :
    (leftMerge [eRow5] [(5, [("a", "b")])]).length = 1
      ∧ leftMerge [eRow5] [(5, [("a", "b")])]
        = [(eRow5, some [("a", "b")])]
      ∧ flattenParams none = [] := by
  have h := c3_left_join_shape [eRow5] [(5, [("a", "b")])] (by decide)
  exact ⟨h.1, by rw [h.2.1]; rfl, h.2.2⟩

theorem alookup_zipIdxFrom {α : Type} (l : List α) :
    ∀ s i : Nat, alookup (s + i) (zipIdxFrom s l) = l[i]? := by
  induction l with
  | nil => intro s i; simp [zipIdxFrom]
  | cons x xs ih =>
    intro s i
    cases i with
    | zero => simp [zipIdxFrom]
    | succ j =>
      have hne : s ≠ s + (j + 1) := by omega
      have harith : s + (j + 1) = (s + 1) + j := by omega
      simp only [zipIdxFrom, alookup_cons, if_neg hne]
      rw [harith, ih]
      simp

/-- C9: converting a dataframe-format result to the dict-orientation
representation preserves every field value: for every row index and every
column name, the cell read through the row-indexed mapping built by
`to_dict(orient=index)` equals the cell of the tabular representation. -/
theorem c9_to_dict_preserves_cells (rows : List MergedRow) (i : Nat)
    (c : String) :
    dictCell (toDictIndex rows) i c = frameCell rows i c := by
  unfold dictCell frameCell toDictIndex
  have h := alookup_zipIdxFrom (rows.map rowDict) 0 i
  rw [Nat.zero_add] at h
  rw [h, List.getElem?_map]
  cases rows[i]? with
  | none => rfl
  | some r => rfl

/-- The network trace of the plain listing never contains a setup fetch:
its only possible call is the single evaluation-list request. -/
theorem setupsFetch_not_in_listing_trace (srv : Server) (f : String)
    (offset size : Option Int) (id task setup flow uploader : Option (List Int))
    (tag : Option String) (per_fold : Option Bool) (sort_order : Option String)
    (fmt : String) (ids : List Int) :
    NetCall.setupsFetch ids ∉
      (list_evaluations srv f offset size id task setup flow uploader tag
        per_fold sort_order fmt).2 := by
  unfold list_evaluations _list_all
  by_cases hbad : fmt ∉ (["dataframe", "dict", "object"] : List String)
  · rw [if_pos hbad]
    simp
  · rw [if_neg hbad]
    dsimp only
    cases srv.evalsDoc (buildApiCall f
        (optKw "tag" tag ++ optKw "limit" (size.map toString)
          ++ optKw "offset" (offset.map toString)
          ++ optKw "per_fold" (per_fold.map fun b => if b then "true" else "false"))
        id task setup flow uploader sort_order) with
    | none => simp
    | some doc => simp

/-- C5: when the evaluation listing fetched by the setup join is an empty
table, the join returns the empty table (or its empty mapping
representation) with the trace of the initial fetch unchanged, and no
setup-fetch call occurs in the trace of the whole operation. -/
theorem c5_empty_returns_without_setup_fetch (srv : Server) (f : String)
    (offset size : Option Int) (id task setup flow uploader : Option (List Int))
    (tag : Option String) (per_fold : Option Bool) (sort_order : Option String)
    (fmt : String) (cols : List String) (tr : List NetCall)
    (hfe : list_evaluations srv f offset size id task setup flow uploader tag
        per_fold sort_order "dataframe" = (.ok (.frame cols []), tr)) :
    list_evaluations_setups srv f offset size id task setup flow uploader tag
        per_fold sort_order fmt
      = ((if fmt = "dataframe" then Except.ok (SetupsResult.frame [] [])
          else Except.ok (SetupsResult.dictIndex [])), tr)
      ∧ ∀ ids, NetCall.setupsFetch ids ∉
          (list_evaluations_setups srv f offset size id task setup flow
            uploader tag per_fold sort_order fmt).2 := by
  have hmain : list_evaluations_setups srv f offset size id task setup flow
      uploader tag per_fold sort_order fmt
      = ((if fmt = "dataframe" then Except.ok (SetupsResult.frame [] [])
          else Except.ok (SetupsResult.dictIndex [])), tr) := by
    unfold list_evaluations_setups
    rw [hfe]
    by_cases hdf : fmt = "dataframe"
    · simp [rowsOf, hdf, toDictIndex, zipIdxFrom]
    · simp [rowsOf, hdf, toDictIndex, zipIdxFrom]
  refine ⟨hmain, ?_⟩
  intro ids
  rw [hmain]
  have htr : tr = (list_evaluations srv f offset size id task setup flow
      uploader tag per_fold sort_order "dataframe").2 := by rw [hfe]
  show NetCall.setupsFetch ids ∉ tr
  rw [htr]
  exact setupsFetch_not_in_listing_trace srv f offset size id task setup flow
    uploader tag per_fold sort_order "dataframe" ids

/-- Closed instance discharging the hypothesis of the C5 theorem on a
server reporting no results. -/
theorem c5_empty_returns_without_setup_fetch_witness :
    list_evaluations_setups srvEmptyEvals "f" none none none none none none
        none none none none "dict"
      = ((if ("dict" : String) = "dataframe" then Except.ok (SetupsResult.frame [] [])
          else Except.ok (SetupsResult.dictIndex [])),
         [NetCall.apiGet "evaluation/list/function/f"])
      ∧ ∀ ids, NetCall.setupsFetch ids ∉
          (list_evaluations_setups srvEmptyEvals "f" none none none none none
            none none none none none "dict").2 :=
  c5_empty_returns_without_setup_fetch srvEmptyEvals "f" none none none none
    none none none none none none "dict" []
    [NetCall.apiGet "evaluation/list/function/f"] (by rfl)

/-- C4 counterexample: calling the setup-join variant with the
unrecognized output format string banana raises no error at all: the
operation performs its evaluation fetch and its setup fetch and returns
the dict-orientation result, so no usage error precedes the network
calls. -/
theorem c4_setups_accepts_bad_format_counterexample :
    ("banana" ∉ (["dataframe", "dict", "object"] : List String))
      ∧ list_evaluations_setups srvMatched "f" none none none none none none
          none none none none "banana"
        = (.ok (.dictIndex (toDictIndex [(parseOne rEvalS7, some [("max_depth", "3")])])),
           [.apiGet "evaluation/list/function/f", .setupsFetch [7]]) := by
  constructor
  · decide
  · rfl

/-- C4 amended: the plain evaluation listing validates the output format
and raises the usage error with an empty network trace, before any
network call; the setup-join variant performs no such validation: with
any unrecognized output format it behaves exactly as with the dict
format, its network calls included. -/
theorem c4_format_validation_only_in_plain_listing (srv : Server) (f : String)
    (offset size : Option Int) (id task setup flow uploader : Option (List Int))
    (tag : Option String) (per_fold : Option Bool) (sort_order : Option String)
    (fmt : String)
    (hbad : fmt ∉ (["dataframe", "dict", "object"] : List String)) :
    list_evaluations srv f offset size id task setup flow uploader tag
        per_fold sort_order fmt
      = (.error (.valueError invalidFormatMsg), [])
      ∧ list_evaluations_setups srv f offset size id task setup flow uploader
          tag per_fold sort_order fmt
        = list_evaluations_setups srv f offset size id task setup flow uploader
            tag per_fold sort_order "dict" := by
  have hnd : fmt ≠ "dataframe" := by
    intro h
    subst h
    exact hbad (by simp)
  have hdd : ("dict" : String) ≠ "dataframe" := by decide
  constructor
  · rw [list_evaluations, if_pos hbad]
  · unfold list_evaluations_setups
    rcases hfe : list_evaluations srv f offset size id task setup flow uploader
        tag per_fold sort_order "dataframe" with ⟨res, tr⟩
    cases res with
    | error e => rfl
    | ok r =>
      simp only [if_neg hnd, if_neg hdd]

/-- Closed instance discharging the hypothesis of the C4 theorem at the
format string banana. -/
theorem c4_format_validation_only_in_plain_listing_witness :
    list_evaluations srvMatched "f" none none none none none none none none
        none none "banana"
      = (.error (.valueError invalidFormatMsg), [])
      ∧ list_evaluations_setups srvMatched "f" none none none none none none
          none none none none "banana"
        = list_evaluations_setups srvMatched "f" none none none none none none
            none none none none "dict" :=
  c4_format_validation_only_in_plain_listing srvMatched "f" none none none
    none none none none none none none "banana" (by decide)

/-- A batch fetch with no setup rows does not reach the merge at all: the
column-less empty setup dataframe makes the flow-id drop raise KeyError,
after the evaluation fetch and the network call of the empty batch. -/
theorem setups_empty_batch_key_error :
    list_evaluations_setups srvNoSetups "f" none none none none none none
        none none none none "dataframe"
      = (.error (.keyError "[\x27flow_id\x27] not found in axis"),
         [.apiGet "evaluation/list/function/f", .setupsFetch [7]]) := by
  rfl

/-- C3 counterexample: with two evaluation rows (setup ids 5 and 7) and a
non-empty setup fetch returning a record for id 5 only, the left merge
keeps both rows but the row whose setup id has no matching setup record
carries the missing value NaN (modelled as `none`) in the parameters
column, which differs from the empty parameter list the claim asserts. -/
theorem c3_unmatched_row_nan_counterexample :
    list_evaluations_setups srvPartialSetups "f" none none none none none none
        none none none none "dataframe"
      = (.ok (.frame mergedCols
          [(parseOne rEvalRun1Setup5, some [("a", "b")]),
           (parseOne rEvalRun2Setup7, none)]),
         [.apiGet "evaluation/list/function/f", .setupsFetch [5, 7]])
      ∧ (none : Option (List (String × String))) ≠ some [] := by
  exact ⟨rfl, by simp⟩

set_option maxRecDepth 100000 in
/-- C2 (code bug): with 101 distinct setup identifiers the computed
section count is 2, and `numpy.split` demands an equal division, so the
setup join raises ValueError instead of fetching batches of at most 100
setups. -/
theorem c2_np_split_unequal_division :
    (list_evaluations_setups srvDistinct101 "f" none none none none none none
        none none none none "dataframe").1
      = .error (.valueError "array split does not result in an equal division") := by
  rfl

end OpenmlEvals
